import Mathlib

/-!
Verification development for the video-editor server.

The definitions below are shallow embeddings of the job admission queue
(`enqueueJob` in the routes module), the route handlers (trim, filter,
text overlay, audio), the text escaping for the drawtext filter
expression, the byte-range streaming responder, and the periodic
file-eviction sweep.  Job ids, file names and header strings are modelled
explicitly; JavaScript numbers used for media times are modelled as
rationals.
-/

/-! ## Job admission queue

Embedding of the queue in the routes module (part_000 lines 14-44):

  let activeJobs = 0;
  const MAX_CONCURRENT_JOBS = 1;
  const jobQueue = [];
  function enqueueJob(jobFn) { ... }

On submission, if `activeJobs < MAX_CONCURRENT_JOBS` the job starts at
once (activeJobs++); otherwise its run closure is pushed on `jobQueue`.
When a running job settles (resolve or reject of jobFn), the finally
callback decrements `activeJobs` and, if the queue is non-empty, shifts
the front closure and invokes it (which increments `activeJobs` again).

The state carries the two concrete pieces of program state (`active` for
activeJobs, `waiting` for jobQueue) plus ghost history fields used only
to state properties: `running` (ids of currently executing jobs),
`started` (ids in the order they entered the running state) and
`terminal` (settled jobs with their success flag; the route error
handlers always resolve, part_000 lines 298-303, so failed engine
invocations also settle and reach the finally callback).
-/

def MAX_CONCURRENT_JOBS : Nat := 1

structure QState where
  active : Nat
  waiting : List Nat
  running : List Nat
  started : List Nat
  terminal : List (Nat × Bool)
deriving DecidableEq, Repr

def qInit : QState := ⟨0, [], [], [], []⟩

inductive QEvent where
  | submit : Nat → QEvent
  | finish : Nat → Bool → QEvent
deriving DecidableEq, Repr

/-- One event-loop turn of the queue: a submission runs the job when a
slot is free and queues it otherwise; a settling job frees its slot and,
when the wait list is non-empty, shifts exactly the front entry into the
running state (part_000 lines 27-34 and 37-42). -/
def stepFn (N : Nat) (s : QState) : QEvent → QState
  | .submit j =>
    if s.active < N then
      { active := s.active + 1, waiting := s.waiting, running := s.running ++ [j],
        started := s.started ++ [j], terminal := s.terminal }
    else
      { active := s.active, waiting := s.waiting ++ [j], running := s.running,
        started := s.started, terminal := s.terminal }
  | .finish j ok =>
    match s.waiting with
    | [] =>
      { active := s.active - 1, waiting := [], running := s.running.erase j,
        started := s.started, terminal := s.terminal ++ [(j, ok)] }
    | k :: rest =>
      { active := s.active - 1 + 1, waiting := rest, running := (s.running.erase j) ++ [k],
        started := s.started ++ [k], terminal := s.terminal ++ [(j, ok)] }

/-- Validity of an event against a state: submitted ids are fresh and
only running jobs settle. -/
def okEvent (s : QState) : QEvent → Bool
  | .submit j => decide (j ∉ s.waiting ∧ j ∉ s.running ∧ j ∉ s.terminal.map Prod.fst)
  | .finish j _ => decide (j ∈ s.running)

def wfRun (N : Nat) (s : QState) : List QEvent → Bool
  | [] => true
  | e :: es => okEvent s e && wfRun N (stepFn N s e) es

def runEvents (N : Nat) (s : QState) (es : List QEvent) : QState :=
  es.foldl (stepFn N) s

def submitsOf : List QEvent → List Nat
  | [] => []
  | .submit j :: es => j :: submitsOf es
  | .finish _ _ :: es => submitsOf es

@[simp]
theorem submitsOf_nil : submitsOf [] = [] := rfl

@[simp]
theorem submitsOf_cons_submit (j : Nat) (es : List QEvent) :
    submitsOf (.submit j :: es) = j :: submitsOf es := rfl

@[simp]
theorem submitsOf_cons_finish (j : Nat) (ok : Bool) (es : List QEvent) :
    submitsOf (.finish j ok :: es) = submitsOf es := rfl

@[simp]
theorem runEvents_nil (N : Nat) (s : QState) : runEvents N s [] = s := rfl

@[simp]
theorem runEvents_cons (N : Nat) (s : QState) (e : QEvent) (es : List QEvent) :
    runEvents N s (e :: es) = runEvents N (stepFn N s e) es := rfl

/-- State invariant maintained by the queue: the active count never
exceeds the ceiling, it equals the number of running jobs, and a free
slot implies an empty wait list. -/
def QInv (N : Nat) (s : QState) : Prop :=
  s.active ≤ N ∧ s.active = s.running.length ∧ (s.active < N → s.waiting = [])

theorem qInv_init (N : Nat) : QInv N qInit :=
  ⟨Nat.zero_le N, rfl, fun _ => rfl⟩

theorem qInv_step (N : Nat) (s : QState) (e : QEvent)
    (h : QInv N s) (hok : okEvent s e = true) : QInv N (stepFn N s e) := by
  obtain ⟨h1, h2, h3⟩ := h
  cases e with
  | submit j =>
    by_cases hlt : s.active < N
    · refine ⟨?_, ?_, ?_⟩ <;> simp [stepFn, hlt]
      · omega
      · omega
      · intro hlt'
        exact h3 (by omega)
    · refine ⟨?_, ?_, ?_⟩ <;> simp [stepFn, hlt]
      · exact h1
      · exact h2
  | finish j ok =>
    have hmem : j ∈ s.running := by
      simpa [okEvent] using hok
    have hpos : 1 ≤ s.running.length := List.length_pos.mpr (List.ne_nil_of_mem hmem)
    have herase : (s.running.erase j).length = s.running.length - 1 :=
      List.length_erase_of_mem hmem
    cases hw : s.waiting with
    | nil =>
      refine ⟨?_, ?_, ?_⟩ <;> simp [stepFn, hw, herase]
      · omega
      · omega
    | cons k rest =>
      refine ⟨?_, ?_, ?_⟩ <;> simp [stepFn, hw, herase]
      · omega
      · omega
      · intro hlt'
        have := h3 (by omega)
        rw [hw] at this
        exact absurd this (by simp)

theorem qInv_run (N : Nat) (es : List QEvent) (s : QState)
    (hwf : wfRun N s es = true) (h : QInv N s) : QInv N (runEvents N s es) := by
  induction es generalizing s with
  | nil => simpa using h
  | cons e es ih =>
    rw [wfRun, Bool.and_eq_true] at hwf
    exact ih (stepFn N s e) hwf.2 (qInv_step N s e h hwf.1)

theorem wfRun_take (N : Nat) (es : List QEvent) (s : QState)
    (hwf : wfRun N s es = true) : ∀ k, wfRun N s (es.take k) = true := by
  induction es generalizing s with
  | nil => intro k; simp [wfRun]
  | cons e es ih =>
    intro k
    cases k with
    | zero => simp [wfRun]
    | succ k =>
      rw [wfRun, Bool.and_eq_true] at hwf
      simpa [wfRun, hwf.1] using ih (stepFn N s e) hwf.2 k

/-- Conservation of jobs: every submitted job is in exactly one of the
waiting, running or terminal collections. -/
theorem job_count_run (N : Nat) (es : List QEvent) (s : QState)
    (hwf : wfRun N s es = true) :
    (runEvents N s es).running.length + (runEvents N s es).waiting.length
      + (runEvents N s es).terminal.length
    = s.running.length + s.waiting.length + s.terminal.length + (submitsOf es).length := by
  induction es generalizing s with
  | nil => simp
  | cons e es ih =>
    rw [wfRun, Bool.and_eq_true] at hwf
    have hstep := ih (stepFn N s e) hwf.2
    rw [runEvents_cons, hstep]
    cases e with
    | submit j =>
      by_cases hlt : s.active < N <;> simp [stepFn, hlt, submitsOf] <;> omega
    | finish j ok =>
      have hmem : j ∈ s.running := by simpa [okEvent] using hwf.1
      have hpos : 1 ≤ s.running.length := List.length_pos.mpr (List.ne_nil_of_mem hmem)
      have herase : (s.running.erase j).length = s.running.length - 1 :=
        List.length_erase_of_mem hmem
      cases hw : s.waiting with
      | nil => simp [stepFn, hw, herase, submitsOf]; omega
      | cons k rest => simp [stepFn, hw, herase, submitsOf]; omega

/-- FIFO invariant: the ids that have entered the running state followed
by the ids still waiting reproduce the submission order exactly. -/
theorem fifo_run (N : Nat) (es : List QEvent) (s : QState)
    (hwf : wfRun N s es = true) (hinv : QInv N s) :
    (runEvents N s es).started ++ (runEvents N s es).waiting
      = (s.started ++ s.waiting) ++ submitsOf es := by
  induction es generalizing s with
  | nil => simp
  | cons e es ih =>
    rw [wfRun, Bool.and_eq_true] at hwf
    have hstep := ih (stepFn N s e) hwf.2 (qInv_step N s e hinv hwf.1)
    rw [runEvents_cons, hstep]
    cases e with
    | submit j =>
      by_cases hlt : s.active < N
      · have hempty : s.waiting = [] := hinv.2.2 hlt
        simp [stepFn, hlt, hempty, submitsOf]
      · simp [stepFn, hlt, submitsOf]
    | finish j ok =>
      cases hw : s.waiting with
      | nil => simp [stepFn, hw, submitsOf]
      | cons k rest => simp [stepFn, hw, submitsOf]

/-- C1: for every well-formed sequence of submissions and completions,
the number of running jobs never exceeds the concurrency ceiling N
(MAX_CONCURRENT_JOBS = 1 in the code), and once every submitted job has
settled (nothing running, nothing waiting) the number of jobs in a
terminal state equals the number of submissions. -/
theorem enqueueJob_bounded_and_terminal (N : Nat) (es : List QEvent)
    (hwf : wfRun N qInit es = true) :
    (∀ k, (runEvents N qInit (es.take k)).active ≤ N) ∧
    ((runEvents N qInit es).running = [] → (runEvents N qInit es).waiting = [] →
      (runEvents N qInit es).terminal.length = (submitsOf es).length) := by
  constructor
  · intro k
    exact (qInv_run N (es.take k) qInit (wfRun_take N es qInit hwf k) (qInv_init N)).1
  · intro hrun hwait
    have := job_count_run N es qInit hwf
    rw [hrun, hwait] at this
    simpa [qInit] using this

/-- C1 witness: a concrete two-job trace at the reference ceiling. -/
theorem enqueueJob_bounded_and_terminal_witness :
    wfRun MAX_CONCURRENT_JOBS qInit
        [QEvent.submit 0, QEvent.submit 1, QEvent.finish 0 true, QEvent.finish 1 false] = true ∧
    ((∀ k, (runEvents MAX_CONCURRENT_JOBS qInit
        ([QEvent.submit 0, QEvent.submit 1, QEvent.finish 0 true, QEvent.finish 1 false].take k)).active
          ≤ MAX_CONCURRENT_JOBS) ∧
     ((runEvents MAX_CONCURRENT_JOBS qInit
        [QEvent.submit 0, QEvent.submit 1, QEvent.finish 0 true, QEvent.finish 1 false]).running = [] →
      (runEvents MAX_CONCURRENT_JOBS qInit
        [QEvent.submit 0, QEvent.submit 1, QEvent.finish 0 true, QEvent.finish 1 false]).waiting = [] →
      (runEvents MAX_CONCURRENT_JOBS qInit
        [QEvent.submit 0, QEvent.submit 1, QEvent.finish 0 true, QEvent.finish 1 false]).terminal.length
        = (submitsOf [QEvent.submit 0, QEvent.submit 1, QEvent.finish 0 true, QEvent.finish 1 false]).length)) :=
  ⟨by decide,
   enqueueJob_bounded_and_terminal MAX_CONCURRENT_JOBS
     [QEvent.submit 0, QEvent.submit 1, QEvent.finish 0 true, QEvent.finish 1 false] (by decide)⟩

/-- C2: jobs enter the running state in strictly FIFO submission order
(the started ids followed by the waiting ids reproduce the submission
order), and on any terminal transition with a non-empty wait list the
queue shifts exactly the oldest entry into the running state. -/
theorem enqueueJob_fifo (N : Nat) (es : List QEvent)
    (hwf : wfRun N qInit es = true) :
    (runEvents N qInit es).started ++ (runEvents N qInit es).waiting = submitsOf es ∧
    (∀ j ok k rest, (runEvents N qInit es).waiting = k :: rest →
      (stepFn N (runEvents N qInit es) (.finish j ok)).waiting = rest ∧
      (stepFn N (runEvents N qInit es) (.finish j ok)).started
        = (runEvents N qInit es).started ++ [k]) := by
  constructor
  · simpa [qInit] using fifo_run N es qInit hwf (qInv_init N)
  · intro j ok k rest hw
    constructor <;> simp [stepFn, hw]

/-- C2 witness: submit job 5 then job 7 at ceiling 1; after 5 settles,
the started order is exactly the submission order. -/
theorem enqueueJob_fifo_witness :
    wfRun 1 qInit [QEvent.submit 5, QEvent.submit 7, QEvent.finish 5 true] = true ∧
    ((runEvents 1 qInit [QEvent.submit 5, QEvent.submit 7, QEvent.finish 5 true]).started
        ++ (runEvents 1 qInit [QEvent.submit 5, QEvent.submit 7, QEvent.finish 5 true]).waiting
      = submitsOf [QEvent.submit 5, QEvent.submit 7, QEvent.finish 5 true] ∧
     (∀ j ok k rest,
       (runEvents 1 qInit [QEvent.submit 5, QEvent.submit 7, QEvent.finish 5 true]).waiting = k :: rest →
       (stepFn 1 (runEvents 1 qInit [QEvent.submit 5, QEvent.submit 7, QEvent.finish 5 true])
          (.finish j ok)).waiting = rest ∧
       (stepFn 1 (runEvents 1 qInit [QEvent.submit 5, QEvent.submit 7, QEvent.finish 5 true])
          (.finish j ok)).started
         = (runEvents 1 qInit [QEvent.submit 5, QEvent.submit 7, QEvent.finish 5 true]).started ++ [k])) :=
  ⟨by decide,
   enqueueJob_fifo 1 [QEvent.submit 5, QEvent.submit 7, QEvent.finish 5 true] (by decide)⟩

/-- C3: a failed engine invocation settles a job exactly like a success
(the finally callback runs in both cases, and the route error handlers
resolve rather than hang, part_000 lines 298-303), so a failed first job
frees its slot and the second submitted job still runs: after submit a,
submit b, fail a, job b is the unique running job. -/
theorem failed_job_frees_slot (a b : Nat) :
    (∀ (M : Nat) (s : QState) (j : Nat),
        (stepFn M s (.finish j false)).active = (stepFn M s (.finish j true)).active ∧
        (stepFn M s (.finish j false)).waiting = (stepFn M s (.finish j true)).waiting ∧
        (stepFn M s (.finish j false)).running = (stepFn M s (.finish j true)).running ∧
        (stepFn M s (.finish j false)).started = (stepFn M s (.finish j true)).started) ∧
    ((runEvents 1 qInit [QEvent.submit a, QEvent.submit b, QEvent.finish a false]).started = [a, b] ∧
     (runEvents 1 qInit [QEvent.submit a, QEvent.submit b, QEvent.finish a false]).running = [b] ∧
     (runEvents 1 qInit [QEvent.submit a, QEvent.submit b, QEvent.finish a false]).active = 1 ∧
     (runEvents 1 qInit [QEvent.submit a, QEvent.submit b, QEvent.finish a false]).waiting = [] ∧
     (runEvents 1 qInit [QEvent.submit a, QEvent.submit b, QEvent.finish a false]).terminal
       = [(a, false)]) := by
  constructor
  · intro M s j
    refine ⟨?_, ?_, ?_, ?_⟩ <;> cases hw : s.waiting <;> simp [stepFn, hw]
  · refine ⟨?_, ?_, ?_, ?_, ?_⟩ <;>
      simp [runEvents, stepFn, qInit, List.erase_cons]

/-! ## Trim duration (C7)

Embedding of the trim duration computation.  The defensive route module
(part_000 lines 264-278) computes

  const start = parseFloat(startTime) || 0;
  const end = parseFloat(endTime) || 0;
  const duration = end > start ? end - start : 0;

and pushes the output option -t only when duration > 0.  The light route
module (routes/video.js lines 181-187) instead runs

  cmd.setStartTime(startTime || 0);
  if (endTime) cmd.setDuration(endTime - (startTime || 0));

with no clamp.  Request times are modelled as rationals; a missing or
non-numeric field is modelled as none (parseFloat of it is NaN, which is
falsy, so the defensive module substitutes 0). -/

/-- JavaScript `parseFloat(x) || 0` over an optional numeric field: a
missing field yields 0, and a zero value (falsy) also yields 0. -/
def parseFloatOr0 (x : Option ℚ) : ℚ := x.getD 0

/-- Duration computed by the defensive trim route (part_000 line 266). -/
def trimDuration (startTime endTime : Option ℚ) : ℚ :=
  if parseFloatOr0 endTime > parseFloatOr0 startTime then
    parseFloatOr0 endTime - parseFloatOr0 startTime
  else 0

/-- Whether the defensive trim route passes -t to the engine at all
(part_000 lines 275-278: only when the computed duration is positive). -/
def trimPassesT (startTime endTime : Option ℚ) : Bool :=
  decide (trimDuration startTime endTime > 0)

/-- Duration passed by the light trim route (routes/video.js lines
185-187): none when endTime is falsy (absent or 0), otherwise the raw
difference endTime - (startTime || 0), with no clamp. -/
def trimDurationLight (startTime endTime : Option ℚ) : Option ℚ :=
  match endTime with
  | none => none
  | some e => if e = 0 then none else some (e - parseFloatOr0 startTime)

/-- C7 counterexample: in the light trim route cited by the claim
(routes/video.js lines 181-187), startTime 5 and endTime 1 make the
engine receive duration -4, so the duration passed to the engine is not
max(0, end - start) and is negative. -/
theorem trim_light_negative_duration_cx :
    trimDurationLight (some 5) (some 1) = some (-4) ∧
    ¬ trimDurationLight (some 5) (some 1) = some (max 0 (1 - 5 : ℚ)) ∧
    (-4 : ℚ) < 0 := by
  refine ⟨?_, ?_, by norm_num⟩ <;> norm_num [trimDurationLight, parseFloatOr0]

/-- C7 amended: in the defensive trim route the computed duration equals
max(0, end - start), hence is never negative and is 0 whenever
end ≤ start, and -t is passed to the engine only when it is positive;
the light route (routes/video.js) passes the raw difference unclamped,
which is negative whenever endTime is a nonzero value below startTime. -/
theorem trimDuration_clamped (startTime endTime : Option ℚ) :
    trimDuration startTime endTime
      = max 0 (parseFloatOr0 endTime - parseFloatOr0 startTime) ∧
    0 ≤ trimDuration startTime endTime ∧
    (parseFloatOr0 endTime ≤ parseFloatOr0 startTime → trimDuration startTime endTime = 0) ∧
    (trimPassesT startTime endTime = true ↔ 0 < trimDuration startTime endTime) ∧
    (∀ s e : ℚ, e ≠ 0 → trimDurationLight (some s) (some e) = some (e - s)) := by
  refine ⟨?_, ?_, ?_, ?_, ?_⟩
  · rw [trimDuration]
    split <;> rename_i h
    · rw [max_eq_right]
      linarith
    · rw [max_eq_left]
      linarith
  · rw [trimDuration]
    split <;> rename_i h <;> linarith
  · intro hle
    rw [trimDuration, if_neg (by linarith)]
  · simp [trimPassesT]
  · intro s e he
    simp [trimDurationLight, parseFloatOr0, he]

/-- C7 witness: end 9 and start 2 give the clamped duration max(0,7)=7;
end 1 and start 5 give 0 and no -t option. -/
theorem trimDuration_clamped_witness :
    (trimDuration (some 2) (some 9) = max 0 ((9 : ℚ) - 2) ∧
     0 ≤ trimDuration (some 2) (some 9) ∧
     ((9 : ℚ) ≤ 2 → trimDuration (some 2) (some 9) = 0) ∧
     (trimPassesT (some 2) (some 9) = true ↔ 0 < trimDuration (some 2) (some 9)) ∧
     (∀ s e : ℚ, e ≠ 0 → trimDurationLight (some s) (some e) = some (e - s))) ∧
    trimDuration (some 5) (some 1) = 0 :=
  ⟨by simpa [parseFloatOr0] using trimDuration_clamped (some 2) (some 9),
   (trimDuration_clamped (some 5) (some 1)).2.2.1 (by norm_num [parseFloatOr0])⟩

/-! ## Audio fadeOut (C10)

Embedding of the fadeOut branch of the audio route (part_000 lines
556-585).  The route probes the input with ffprobe and, inside the probe
callback, computes

  const duration = (metadata && metadata.format && metadata.format.duration)
                     ? parseFloat(metadata.format.duration) : 30;
  const fadeStart = Math.max(0, duration - 3);

and then enqueues the job unconditionally: the callback never returns
early on a probe error.  The probe outcome is modelled as Option ℚ,
none standing for a failed probe or an absent duration field; a probed
value of 0 is falsy in JavaScript and thus also falls back to 30. -/

structure FadeOutJob where
  enqueued : Bool
  fadeStart : ℚ
  fadeDur : ℚ
deriving DecidableEq

/-- The duration the fadeOut branch settles on (part_000 line 560). -/
def fadeOutDuration (probe : Option ℚ) : ℚ :=
  match probe with
  | some d => if d = 0 then 30 else d
  | none => 30

/-- The fadeOut branch of the audio route: enqueues in every case and
uses afade with st = max(0, duration - 3) and d = 3 (lines 561-565). -/
def audioFadeOut (probe : Option ℚ) : FadeOutJob :=
  { enqueued := true
    fadeStart := max 0 (fadeOutDuration probe - 3)
    fadeDur := 3 }

/-- C10: a failed probe still enqueues the fadeOut job with the default
duration 30, so its fade start is max(0, 30-3) = 27; for any available
(truthy) probed duration d the job is enqueued with fade start
max(0, d-3); the job is enqueued for every probe outcome. -/
theorem audioFadeOut_spec :
    audioFadeOut none = ⟨true, 27, 3⟩ ∧
    (∀ d : ℚ, d ≠ 0 → audioFadeOut (some d) = ⟨true, max 0 (d - 3), 3⟩) ∧
    (∀ probe : Option ℚ, (audioFadeOut probe).enqueued = true ∧
      0 ≤ (audioFadeOut probe).fadeStart) := by
  refine ⟨?_, ?_, ?_⟩
  · simp only [audioFadeOut, fadeOutDuration]
    norm_num
  · intro d hd
    simp [audioFadeOut, fadeOutDuration, hd]
  · intro probe
    exact ⟨rfl, le_max_left 0 _⟩

/-- C10 witness: a probed duration of 10 gives fade start 7. -/
theorem audioFadeOut_spec_witness :
    (10 : ℚ) ≠ 0 ∧ audioFadeOut (some 10) = ⟨true, max 0 ((10 : ℚ) - 3), 3⟩ :=
  ⟨by norm_num, audioFadeOut_spec.2.1 10 (by norm_num)⟩

/-! ## Failure cleanup of partial outputs (C4)

part_000 lines 46-51 define a helper

  function safeDelete(filePath) {
    try { if (fs.existsSync(filePath)) fs.unlinkSync(filePath); }
    catch (e) { }
  }

but no error handler in the file calls it.  The filter route error
handler (part_000 lines 354-358) is

  .on('error', (err) => {
    console.error('Filter error:', err.message);
    if (!res.headersSent) res.status(500).json({...});
    resolve();
  });

it logs, sends a 500 response when headers were not yet sent, and
resolves the job; it performs no filesystem operation, so whatever the
engine wrote at the output path stays on disk.  The filesystem is
modelled as the list of paths present in the processed directory. -/

/-- Embedding of safeDelete (part_000 lines 47-51). -/
def safeDelete (files : List String) (p : String) : List String :=
  if p ∈ files then files.erase p else files

structure ErrorHandlerOutcome where
  files : List String
  status : Option Nat
deriving DecidableEq

/-- Embedding of the filter route error handler (part_000 lines
354-358): response only, no file deletion. -/
def filterErrorHandler (headersSent : Bool) (files : List String) : ErrorHandlerOutcome :=
  { files := files
    status := if headersSent then none else some 500 }

/-- C4 counterexample: a failed filter job whose engine partially wrote
the declared output path leaves that file reachable after the 500
response; had the handler called safeDelete on the output path the file
would be gone.  This refutes the claim that any partially written output
file is removed on failure. -/
theorem filter_error_keeps_partial_output_cx :
    (filterErrorHandler false ["filtered_0a.mp4"]).files = ["filtered_0a.mp4"] ∧
    (filterErrorHandler false ["filtered_0a.mp4"]).status = some 500 ∧
    "filtered_0a.mp4" ∈ (filterErrorHandler false ["filtered_0a.mp4"]).files ∧
    safeDelete ["filtered_0a.mp4"] "filtered_0a.mp4" = [] := by
  refine ⟨rfl, rfl, ?_, by decide⟩
  simp [filterErrorHandler]

/-- C4 amended: on a failed filter job the error handler sends the 500
response (when headers were not yet sent) and resolves the job, but does
not touch the filesystem: the set of files in the processed directory,
including any partially written output, is exactly what it was before
the handler ran.  The unused safeDelete helper would have removed an
existing path. -/
theorem filterErrorHandler_spec (headersSent : Bool) (files : List String) (p : String) :
    (filterErrorHandler headersSent files).files = files ∧
    (filterErrorHandler headersSent files).status
      = (if headersSent then none else some 500) ∧
    safeDelete files p = files.erase p := by
  refine ⟨rfl, rfl, ?_⟩
  rw [safeDelete]
  split <;> rename_i h
  · rfl
  · exact (List.erase_of_not_mem h).symm

/-! ## Text overlay escaping (C5)

Embedding of the two escaping pipelines for the drawtext filter
expression.  The defensive text route (part_000 lines 386-392) runs

  const escapedText = text
      .replace(/\\/g, '\\\\')
      .replace(/'/g, "’")
      .replace(/:/g, '\\:')
      .replace(/%/g, '%%')
      .replace(/\[/g, '\\[')
      .replace(/\]/g, '\\]');

while the light text route (routes/video.js lines 274-278) runs

  const escapedText = text
      .replace(/\\/g, '\\\\\\\\')
      .replace(/'/g, "'\\\\\\''")
      .replace(/:/g, '\\:')
      .replace(/;/g, '\;');

Each stage is a global single-character replacement, modelled as a bind
over the character list.  A character of the filter mini-language counts
as neutralized when a left-to-right scan of the escaped output consumes
it inside an escape pair (backslash-escape or a doubled percent); the
scan below accepts exactly the strings in which no backslash, quote,
colon, percent or bracket occurs bare. -/

/-- JavaScript String.replace with a global single-character pattern. -/
def jsReplaceAll (target : Char) (rep : List Char) (cs : List Char) : List Char :=
  cs.bind (fun c => if c = target then rep else [c])

/-- The U+2019 right single quotation mark used as replacement for
straight quotes in part_000 line 388. -/
def rsquoChar : Char := Char.ofNat 0x2019

/-- Escaping pipeline of the defensive text route (part_000 lines
386-392), stages applied left to right. -/
def escapedText (text : List Char) : List Char :=
  jsReplaceAll ']' ['\\', ']']
    (jsReplaceAll '[' ['\\', '[']
      (jsReplaceAll '%' ['%', '%']
        (jsReplaceAll ':' ['\\', ':']
          (jsReplaceAll '\'' [rsquoChar]
            (jsReplaceAll '\\' ['\\', '\\'] text)))))

/-- Escaping pipeline of the light text route (routes/video.js lines
274-278): backslash to four backslashes, quote to quote-backslash
sequence, colon and semicolon backslash-escaped; brackets and percent
signs are not touched. -/
def escapedTextLight (text : List Char) : List Char :=
  jsReplaceAll ';' ['\\', ';']
    (jsReplaceAll ':' ['\\', ':']
      (jsReplaceAll '\'' ['\'', '\\', '\\', '\\', '\'', '\'']
        (jsReplaceAll '\\' ['\\', '\\', '\\', '\\'] text)))

/-- The characters of the drawtext expression mini-language that the
claim requires to be neutralized. -/
def isSpecialChar (c : Char) : Bool :=
  (c == '\\') || (c == '\'') || (c == ':') || (c == '%') || (c == '[') || (c == ']')

/-- Left-to-right scan of an escaped string: a backslash must escape a
following character, a percent must be doubled, and every other special
character occurring bare is an unescaped occurrence that fails the
scan. -/
def drawtextScanOk : List Char → Bool
  | [] => true
  | c :: rest =>
    if c = '\\' then
      match rest with
      | [] => false
      | _ :: rest2 => drawtextScanOk rest2
    else if c = '%' then
      match rest with
      | [] => false
      | d :: rest2 => (d == '%') && drawtextScanOk rest2
    else
      !(isSpecialChar c) && drawtextScanOk rest

theorem jsReplaceAll_append (t : Char) (r xs ys : List Char) :
    jsReplaceAll t r (xs ++ ys) = jsReplaceAll t r xs ++ jsReplaceAll t r ys := by
  simp [jsReplaceAll]

theorem escapedText_append (xs ys : List Char) :
    escapedText (xs ++ ys) = escapedText xs ++ escapedText ys := by
  simp [escapedText, jsReplaceAll_append]

theorem scan_bs (d : Char) (rest : List Char) :
    drawtextScanOk ('\\' :: d :: rest) = drawtextScanOk rest := by
  simp [drawtextScanOk]

theorem scan_pct (rest : List Char) :
    drawtextScanOk ('%' :: '%' :: rest) = drawtextScanOk rest := by
  simp [drawtextScanOk]

theorem scan_plain (c : Char) (rest : List Char) (h : isSpecialChar c = false) :
    drawtextScanOk (c :: rest) = drawtextScanOk rest := by
  have h1 : ¬ c = '\\' := by
    intro hc; subst hc; simp [isSpecialChar] at h
  have h2 : ¬ c = '%' := by
    intro hc; subst hc; simp [isSpecialChar] at h
  cases rest with
  | nil => simp [drawtextScanOk, h1, h2, h]
  | cons d rest2 => simp [drawtextScanOk, h1, h2, h]

theorem escapedText_single_plain (c : Char)
    (h1 : ¬ c = '\\') (h2 : ¬ c = '\'') (h3 : ¬ c = ':')
    (h4 : ¬ c = '%') (h5 : ¬ c = '[') (h6 : ¬ c = ']') :
    escapedText [c] = [c] := by
  simp [escapedText, jsReplaceAll, h1, h2, h3, h4, h5, h6]

/-- C5 amended (theorem): the defensive text route escaping neutralizes
every backslash, colon, bracket, percent sign and quote: the scan of the
escaped output never meets a bare occurrence of any of them, for every
input text. -/
theorem escapedText_drawtext_safe (text : List Char) :
    drawtextScanOk (escapedText text) = true := by
  induction text with
  | nil => rfl
  | cons c cs ih =>
    have hsplit : escapedText (c :: cs) = escapedText [c] ++ escapedText cs := by
      simpa using escapedText_append [c] cs
    rw [hsplit]
    by_cases h1 : c = '\\'
    · subst h1
      rw [show escapedText ['\\'] = ['\\', '\\'] from rfl]
      simpa [scan_bs] using ih
    by_cases h2 : c = '\''
    · subst h2
      rw [show escapedText ['\''] = [rsquoChar] from rfl]
      rw [show ([rsquoChar] : List Char) ++ escapedText cs = rsquoChar :: escapedText cs from rfl]
      rw [scan_plain rsquoChar _ (by decide)]
      exact ih
    by_cases h3 : c = ':'
    · subst h3
      rw [show escapedText [':'] = ['\\', ':'] from rfl]
      simpa [scan_bs] using ih
    by_cases h4 : c = '%'
    · subst h4
      rw [show escapedText ['%'] = ['%', '%'] from rfl]
      simpa [scan_pct] using ih
    by_cases h5 : c = '['
    · subst h5
      rw [show escapedText ['['] = ['\\', '['] from rfl]
      simpa [scan_bs] using ih
    by_cases h6 : c = ']'
    · subst h6
      rw [show escapedText [']'] = ['\\', ']'] from rfl]
      simpa [scan_bs] using ih
    · rw [escapedText_single_plain c h1 h2 h3 h4 h5 h6]
      rw [show ([c] : List Char) ++ escapedText cs = c :: escapedText cs from rfl]
      rw [scan_plain c _ (by simp [isSpecialChar, h1, h2, h3, h4, h5, h6])]
      exact ih

/-- C5 counterexample: the light text route cited by the claim
(routes/video.js lines 274-278) leaves a bracket and a percent sign
completely unescaped, so its escaped output contains a bare occurrence
of a character the claim requires to be neutralized; the defensive
route escapes the same inputs. -/
theorem escapedTextLight_bracket_cx :
    escapedTextLight ['['] = ['['] ∧
    drawtextScanOk (escapedTextLight ['[']) = false ∧
    escapedTextLight ['%'] = ['%'] ∧
    drawtextScanOk (escapedTextLight ['%']) = false ∧
    drawtextScanOk (escapedText ['[']) = true ∧
    drawtextScanOk (escapedText ['%']) = true := by
  refine ⟨?_, ?_, ?_, ?_, ?_, ?_⟩ <;> decide

/-! ## Byte-range streaming responder (C6)

Embedding of the video streaming route (routes/video.js lines 101-131,
identical in part_000 lines 186-216):

  const range = req.headers.range;
  if (range) {
    const parts = range.replace(/bytes=/, '').split('-');
    const start = parseInt(parts[0], 10);
    const end = parts[1] ? parseInt(parts[1], 10) : fileSize - 1;
    const chunksize = end - start + 1;
    res.writeHead(206, { 'Content-Range': `bytes ${start}-${end}/${fileSize}`,
                         'Content-Length': chunksize, ... });
  } else {
    res.writeHead(200, { 'Content-Length': fileSize, ... });
  }

Header strings are modelled as character lists.  Decimal rendering and
parsing of the numbers involved are modelled below; the claim only
concerns in-bounds ranges, for which JavaScript number arithmetic agrees
with Nat arithmetic. -/

def digitChar (d : Nat) : Char :=
  if d = 0 then '0' else if d = 1 then '1' else if d = 2 then '2'
  else if d = 3 then '3' else if d = 4 then '4' else if d = 5 then '5'
  else if d = 6 then '6' else if d = 7 then '7' else if d = 8 then '8'
  else '9'

/-- Fuel-driven decimal rendering (the fuel n + 1 always suffices). -/
def natCharsAux : Nat → Nat → List Char → List Char
  | 0, _, acc => acc
  | fuel + 1, n, acc =>
    if n < 10 then digitChar n :: acc
    else natCharsAux fuel (n / 10) (digitChar (n % 10) :: acc)

/-- Decimal rendering of a natural number, as JavaScript template
interpolation of a nonnegative integer produces it. -/
def natChars (n : Nat) : List Char := natCharsAux (n + 1) n []

/-- Recursive specification of decimal rendering, used in proofs. -/
def digitsList (n : Nat) : List Char :=
  if h : n < 10 then [digitChar n]
  else digitsList (n / 10) ++ [digitChar (n % 10)]
decreasing_by exact Nat.div_lt_self (by omega) (by omega)

/-- JavaScript parseInt with radix 10 on a string of decimal digits. -/
def parseNat (cs : List Char) : Nat :=
  cs.foldl (fun a c => a * 10 + (c.toNat - 48)) 0

theorem natCharsAux_eq_digitsList (fuel : Nat) :
    ∀ n acc, n < fuel → natCharsAux fuel n acc = digitsList n ++ acc := by
  induction fuel with
  | zero => intro n acc h; omega
  | succ fuel ih =>
    intro n acc h
    by_cases h10 : n < 10
    · rw [natCharsAux, if_pos h10, digitsList, dif_pos h10]
      rfl
    · have hdiv : n / 10 < n := Nat.div_lt_self (by omega) (by omega)
      rw [natCharsAux, if_neg h10, ih (n / 10) _ (by omega)]
      conv_rhs => rw [digitsList]
      rw [dif_neg h10]
      simp

theorem natChars_eq_digitsList (n : Nat) : natChars n = digitsList n := by
  rw [natChars, natCharsAux_eq_digitsList (n + 1) n [] (Nat.lt_succ_self n)]
  simp

theorem digitChar_toNat (d : Nat) (h : d < 10) : (digitChar d).toNat - 48 = d := by
  interval_cases d <;> decide

theorem digitChar_ne_dash (d : Nat) : ¬ digitChar d = '-' := by
  rw [digitChar]
  split_ifs <;> decide

theorem parseNat_digitsList (n : Nat) : parseNat (digitsList n) = n := by
  induction n using Nat.strong_induction_on with
  | _ n ih =>
    by_cases h10 : n < 10
    · rw [digitsList, dif_pos h10]
      simpa [parseNat] using digitChar_toNat n h10
    · have hdiv : n / 10 < n := Nat.div_lt_self (by omega) (by omega)
      rw [digitsList, dif_neg h10, parseNat, List.foldl_append]
      have := ih (n / 10) hdiv
      rw [parseNat] at this
      rw [this]
      simp [digitChar_toNat (n % 10) (Nat.mod_lt n (by omega))]
      omega

theorem parseNat_natChars (n : Nat) : parseNat (natChars n) = n := by
  rw [natChars_eq_digitsList]
  exact parseNat_digitsList n

theorem digitsList_ne_dash (n : Nat) : ∀ c ∈ digitsList n, ¬ c = '-' := by
  induction n using Nat.strong_induction_on with
  | _ n ih =>
    intro c hc
    by_cases h10 : n < 10
    · rw [digitsList, dif_pos h10] at hc
      simp at hc
      subst hc
      exact digitChar_ne_dash n
    · have hdiv : n / 10 < n := Nat.div_lt_self (by omega) (by omega)
      rw [digitsList, dif_neg h10] at hc
      rcases List.mem_append.mp hc with h | h
      · exact ih (n / 10) hdiv c h
      · simp at h
        subst h
        exact digitChar_ne_dash (n % 10)

theorem digitsList_ne_nil (n : Nat) : ¬ digitsList n = [] := by
  rw [digitsList]
  split
  · simp
  · simp

/-- Splitting a character list at every dash, as String.split('-'). -/
def splitDash : List Char → List (List Char)
  | [] => [[]]
  | c :: cs =>
    match splitDash cs with
    | [] => [[]]
    | p :: ps => if c = '-' then [] :: p :: ps else (c :: p) :: ps

theorem splitDash_ne_nil (cs : List Char) : ¬ splitDash cs = [] := by
  induction cs with
  | nil => simp [splitDash]
  | cons c cs ih =>
    cases h : splitDash cs with
    | nil => exact absurd h ih
    | cons p ps =>
      rw [splitDash, h]
      by_cases hc : c = '-' <;> simp [hc]

theorem splitDash_no_dash (b : List Char) (hb : ∀ c ∈ b, ¬ c = '-') :
    splitDash b = [b] := by
  induction b with
  | nil => rfl
  | cons c cs ih =>
    have hc : ¬ c = '-' := hb c (by simp)
    rw [splitDash, ih (fun d hd => hb d (by simp [hd]))]
    simp [hc]

theorem splitDash_append (a b : List Char) (ha : ∀ c ∈ a, ¬ c = '-') :
    splitDash (a ++ '-' :: b) = a :: splitDash b := by
  induction a with
  | nil =>
    cases h : splitDash b with
    | nil => exact absurd h (splitDash_ne_nil b)
    | cons p ps =>
      rw [List.nil_append, splitDash, h]
      simp
  | cons c cs ih =>
    have hc : ¬ c = '-' := ha c (by simp)
    rw [List.cons_append, splitDash, ih (fun d hd => ha d (by simp [hd]))]
    simp [hc]

/-- Removal of the first occurrence of a pattern, as String.replace with
a non-global regular expression and empty replacement. -/
def replaceFirst (pat : List Char) : List Char → List Char
  | [] => []
  | c :: cs =>
    if (c :: cs).take pat.length = pat then (c :: cs).drop pat.length
    else c :: replaceFirst pat cs

theorem replaceFirst_of_lead (p : Char) (pt rest : List Char) :
    replaceFirst (p :: pt) ((p :: pt) ++ rest) = rest := by
  have htake : ((p :: pt) ++ rest).take (p :: pt).length = p :: pt := List.take_left _ _
  rw [List.cons_append, replaceFirst, ← List.cons_append, if_pos htake, List.drop_left]

def bytesEqChars : List Char := ['b', 'y', 't', 'e', 's', '=']

structure StreamResponse where
  status : Nat
  contentLength : Nat
  contentRange : Option (List Char)
deriving DecidableEq

/-- The Content-Range header value `bytes ${start}-${end}/${fileSize}`
rendered as a character list. -/
def contentRangeChars (start endv size : Nat) : List Char :=
  ['b', 'y', 't', 'e', 's', ' '] ++ natChars start ++ '-' :: natChars endv
    ++ '/' :: natChars size

/-- Embedding of the streaming route (routes/video.js lines 101-131):
404 when the file is absent; with a Range header, a 206 response for the
parsed slice (an absent or empty end part defaults to fileSize - 1);
otherwise a 200 response with the full length. -/
def serveVideo (present : Bool) (fileSize : Nat) (rangeHeader : Option (List Char)) :
    StreamResponse :=
  if present = false then ⟨404, 0, none⟩
  else
    match rangeHeader with
    | some range =>
      let parts := splitDash (replaceFirst bytesEqChars range)
      let start := parseNat (parts.headD [])
      let endv :=
        match parts.drop 1 with
        | [] => fileSize - 1
        | p :: _ => if p = [] then fileSize - 1 else parseNat p
      ⟨206, endv - start + 1, some (contentRangeChars start endv fileSize)⟩
    | none => ⟨200, fileSize, none⟩

/-- C6: for an existing artifact of size S, the header bytes=a-b with
0 ≤ a ≤ b < S yields status 206, Content-Range `bytes a-b/S` and
Content-Length b-a+1; an omitted end (bytes=a-) defaults the end to
S-1; no Range header yields status 200 with Content-Length S. -/
theorem serveVideo_range_spec (S a b : Nat) (hab : a ≤ b) (hbS : b < S) :
    serveVideo true S (some (bytesEqChars ++ natChars a ++ '-' :: natChars b))
      = ⟨206, b - a + 1, some (contentRangeChars a b S)⟩ ∧
    serveVideo true S (some (bytesEqChars ++ natChars a ++ ['-']))
      = ⟨206, (S - 1) - a + 1, some (contentRangeChars a (S - 1) S)⟩ ∧
    serveVideo true S none = ⟨200, S, none⟩ := by
  have hana : ∀ c ∈ natChars a, ¬ c = '-' := by
    rw [natChars_eq_digitsList]; exact digitsList_ne_dash a
  have hbna : ∀ c ∈ natChars b, ¬ c = '-' := by
    rw [natChars_eq_digitsList]; exact digitsList_ne_dash b
  have hbne : ¬ natChars b = [] := by
    rw [natChars_eq_digitsList]; exact digitsList_ne_nil b
  refine ⟨?_, ?_, rfl⟩
  · rw [serveVideo]
    have hrf : replaceFirst bytesEqChars
        (bytesEqChars ++ natChars a ++ '-' :: natChars b)
        = natChars a ++ '-' :: natChars b := by
      rw [List.append_assoc]
      exact replaceFirst_of_lead 'b' ['y', 't', 'e', 's', '='] _
    simp only [hrf, splitDash_append (natChars a) (natChars b) hana,
      splitDash_no_dash (natChars b) hbna]
    simp only [List.headD, List.drop, if_neg hbne, parseNat_natChars]
    rfl
  · rw [serveVideo]
    have hrf : replaceFirst bytesEqChars (bytesEqChars ++ natChars a ++ ['-'])
        = natChars a ++ ['-'] := by
      rw [List.append_assoc]
      exact replaceFirst_of_lead 'b' ['y', 't', 'e', 's', '='] _
    have hsplit : splitDash (natChars a ++ ['-']) = [natChars a, []] := by
      have := splitDash_append (natChars a) [] hana
      simpa [splitDash] using this
    simp only [hrf, hsplit]
    simp only [List.headD, List.drop, if_pos rfl, parseNat_natChars]
    rfl

/-- C6 witness: the 1000-byte artifact with bytes=0-99 yields 206,
Content-Range `bytes 0-99/1000`, Content-Length 100; without a Range
header it yields 200 with Content-Length 1000. -/
theorem serveVideo_range_spec_witness :
    (0 : Nat) ≤ 99 ∧ (99 : Nat) < 1000 ∧
    (serveVideo true 1000 (some (bytesEqChars ++ natChars 0 ++ '-' :: natChars 99))
        = ⟨206, 100, some (contentRangeChars 0 99 1000)⟩ ∧
     serveVideo true 1000 (some (bytesEqChars ++ natChars 0 ++ ['-']))
        = ⟨206, 1000, some (contentRangeChars 0 999 1000)⟩ ∧
     serveVideo true 1000 none = ⟨200, 1000, none⟩) :=
  ⟨by decide, by decide,
   serveVideo_range_spec 1000 0 99 (by decide) (by decide)⟩

/-! ## Request validation before admission (C8)

Embedding of the request-validation stage of the filter route (part_000
lines 309-341) and the audio route (part_000 lines 514-607).  Each
handler checks in order: required body fields present and non-empty
(JavaScript truthiness: a missing field or an empty string is falsy,
yielding 400), then existence of the input file (404), then operation
validity (unknown filter or unknown audio operation yield 400); only
after all checks does it call enqueueJob.  The outcome records the HTTP
status of synchronous rejections (200 standing for the accepted path
whose real response comes later from the job), the queue state after
the handler, and whether a job was enqueued. -/

/-- The fixed filter catalog of the filter route (part_000 lines
321-334). -/
def filterMap : List (String × String) :=
  [("grayscale", "colorchannelmixer=.3:.4:.3:0:.3:.4:.3:0:.3:.4:.3"),
   ("sepia", "colorchannelmixer=.393:.769:.189:0:.349:.686:.168:0:.272:.534:.131"),
   ("blur", "boxblur=5:1"),
   ("sharpen", "unsharp=5:5:1.0:5:5:0.0"),
   ("brightness", "eq=brightness=0.15"),
   ("contrast", "eq=contrast=1.5"),
   ("saturate", "eq=saturation=2.0"),
   ("vignette", "vignette=PI/4"),
   ("vintage", "curves=vintage"),
   ("negative", "negate"),
   ("mirror", "hflip"),
   ("emboss", "convolution=-2 -1 0 -1 1 1 0 1 2:-2 -1 0 -1 1 1 0 1 2:-2 -1 0 -1 1 1 0 1 2:-2 -1 0 -1 1 1 0 1 2:5:5:5:5:0:128")]

/-- The property names a plain JavaScript object literal inherits from
Object.prototype: reading any of them off filterMap yields a function
(or, for the last one, the prototype object itself), all of which are
truthy values. -/
def objectProtoKeys : List String :=
  ["constructor", "toString", "toLocaleString", "valueOf", "hasOwnProperty",
   "isPrototypeOf", "propertyIsEnumerable", "__defineGetter__",
   "__defineSetter__", "__lookupGetter__", "__lookupSetter__", "__proto__"]

/-- Truthiness of the JavaScript property access filterMap[filter]
(part_000 line 336): an own key of the object literal yields its
non-empty string value, a key inherited from Object.prototype yields a
truthy non-string value, and any other name yields undefined, which is
falsy and makes the guard at line 337 reject. -/
def filterMapAccessTruthy (f : String) : Bool :=
  (filterMap.lookup f).isSome || objectProtoKeys.contains f

structure RouteOutcome where
  status : Nat
  queue : QState
  enqueued : Bool
deriving DecidableEq

/-- The filter route handler up to admission (part_000 lines 309-341):
missing or empty filename/filter give 400, a missing input file gives
404, a filter name on which filterMap[filter] is falsy gives 400, and
every other request reaches enqueueJob; because the property access
walks the prototype chain, names inherited from Object.prototype pass
the guard even though they are not catalog entries. -/
def filterRoute (filename filt : Option String) (inputExists : Bool)
    (q : QState) (jobId : Nat) : RouteOutcome :=
  match filename, filt with
  | some fn, some f =>
    if fn = "" ∨ f = "" then ⟨400, q, false⟩
    else if inputExists = false then ⟨404, q, false⟩
    else if filterMapAccessTruthy f then
      ⟨200, stepFn MAX_CONCURRENT_JOBS q (.submit jobId), true⟩
    else ⟨400, q, false⟩
  | _, _ => ⟨400, q, false⟩

/-- The audio route handler up to admission (part_000 lines 514-627):
missing or empty filename/operation give 400, a missing input file gives
404, the operations extract, fadeOut, mute, volume and fadeIn are
enqueued (fadeOut after its probe callback), any other operation gives
400 from the switch default before enqueueJob. -/
def audioRoute (filename operation : Option String) (inputExists : Bool)
    (q : QState) (jobId : Nat) : RouteOutcome :=
  match filename, operation with
  | some fn, some op =>
    if fn = "" ∨ op = "" then ⟨400, q, false⟩
    else if inputExists = false then ⟨404, q, false⟩
    else if op = "extract" then ⟨200, stepFn MAX_CONCURRENT_JOBS q (.submit jobId), true⟩
    else if op = "fadeOut" then ⟨200, stepFn MAX_CONCURRENT_JOBS q (.submit jobId), true⟩
    else if op = "mute" ∨ op = "volume" ∨ op = "fadeIn" then
      ⟨200, stepFn MAX_CONCURRENT_JOBS q (.submit jobId), true⟩
    else ⟨400, q, false⟩
  | _, _ => ⟨400, q, false⟩

/-- C8 counterexample: the claim fails in two concrete ways.  A request
naming an unknown filter whose input file is absent is answered with
404, not 400, because the existence check precedes the catalog access
(part_000 lines 317-319 before lines 336-337).  Worse, the filter name
constructor is not a catalog entry, yet filterMap[filter] finds the
inherited Object.prototype member, a truthy value, so the request with
an existing input file is enqueued and the queue is mutated instead of
being rejected. -/
theorem unknown_filter_absent_file_cx :
    (filterRoute (some "clip.mp4") (some "posterize") false qInit 0
        = ⟨404, qInit, false⟩ ∧
     ¬ (filterRoute (some "clip.mp4") (some "posterize") false qInit 0).status = 400) ∧
    (filterMap.lookup "constructor" = none ∧
     (filterRoute (some "clip.mp4") (some "constructor") true qInit 0).enqueued = true ∧
     ¬ (filterRoute (some "clip.mp4") (some "constructor") true qInit 0).queue = qInit) := by
  refine ⟨⟨?_, ?_⟩, ?_, ?_, ?_⟩ <;> decide


/-- C8 amended: a request with a missing required parameter is rejected
with 400; a request whose filter name makes filterMap[filter] falsy,
being neither a catalog key nor a property name inherited from
Object.prototype, is rejected with 400 when the input file exists and
with 404 when it does not, and the same split holds for unknown audio
operations; in every rejection path the handler returns synchronously
with the admission queue unchanged and no job enqueued.  A filter name
colliding with an inherited Object.prototype member is however truthy
under the property access and is enqueued, mutating the queue, despite
not being a catalog entry. -/
theorem validation_rejected_before_enqueue (fn f op : String) (ex : Bool)
    (q : QState) (jid : Nat) :
    (∀ g : Option String, filterRoute none g ex q jid = ⟨400, q, false⟩) ∧
    filterRoute (some fn) none ex q jid = ⟨400, q, false⟩ ∧
    (¬ fn = "" → ¬ f = "" → filterMapAccessTruthy f = false →
      filterRoute (some fn) (some f) ex q jid
        = ⟨if ex then 400 else 404, q, false⟩) ∧
    (¬ fn = "" → ¬ f = "" → filterMapAccessTruthy f = true →
      filterRoute (some fn) (some f) true q jid
        = ⟨200, stepFn MAX_CONCURRENT_JOBS q (.submit jid), true⟩) ∧
    (∀ g : Option String, audioRoute none g ex q jid = ⟨400, q, false⟩) ∧
    audioRoute (some fn) none ex q jid = ⟨400, q, false⟩ ∧
    (¬ fn = "" → ¬ op = "" →
      ¬ op = "extract" → ¬ op = "fadeOut" → ¬ op = "mute" → ¬ op = "volume" → ¬ op = "fadeIn" →
      audioRoute (some fn) (some op) ex q jid
        = ⟨if ex then 400 else 404, q, false⟩) := by
  refine ⟨?_, ?_, ?_, ?_, ?_, ?_, ?_⟩
  · intro g
    cases g <;> rfl
  · rfl
  · intro hfn hf htr
    cases ex <;>
      simp [filterRoute, hfn, hf, htr]
  · intro hfn hf htr
    simp [filterRoute, hfn, hf, htr]
  · intro g
    cases g <;> rfl
  · rfl
  · intro hfn hop h1 h2 h3 h4 h5
    cases ex <;>
      simp [audioRoute, hfn, hop, h1, h2, h3, h4, h5]

/-- C8 witness: the name posterize is neither a catalog key nor an
Object.prototype member, so with an existing input file the request is
rejected with 400 and the queue is unchanged. -/
theorem validation_rejected_before_enqueue_witness :
    ¬ "clip.mp4" = "" ∧ ¬ "posterize" = "" ∧ filterMapAccessTruthy "posterize" = false ∧
    filterRoute (some "clip.mp4") (some "posterize") true qInit 0
      = ⟨if true then 400 else 404, qInit, false⟩ :=
  ⟨by decide, by decide, by decide,
   (validation_rejected_before_enqueue "clip.mp4" "posterize" "x" true qInit 0).2.2.1
     (by decide) (by decide) (by decide)⟩

/-! ## Age-based eviction sweep (C9)

Embedding of cleanupOldFiles (part_001 lines 31-48):

  const files = fs.readdirSync(directory);
  const now = Date.now();
  for (const file of files) {
    const filePath = path.join(directory, file);
    try {
      const stat = fs.statSync(filePath);
      if (stat.isFile() && (now - stat.mtimeMs) > MAX_FILE_AGE_MS) {
        fs.unlinkSync(filePath);
        cleaned++;
      }
    } catch (e) { /* ignore individual file errors */ }
  }

A directory is modelled as the list of its entries; statFailsOn and
unlinkFailsOn model which paths make statSync and unlinkSync throw (the
per-file try/catch then leaves that entry in place and the loop goes
on).  The scheduling (part_001 lines 50-59) runs the sweep over both
directories every CLEANUP_INTERVAL_MS and once 60 s after startup. -/

def MAX_FILE_AGE_MS : Int := 15 * 60 * 1000

def CLEANUP_INTERVAL_MS : Int := 5 * 60 * 1000

structure FsEntry where
  name : String
  mtimeMs : Int
  isFile : Bool
deriving DecidableEq, Repr

/-- Whether one iteration of the sweep loop removes the entry: stat
succeeded, the entry is a regular file, its age strictly exceeds the
retention window, and unlink succeeded. -/
def sweepDeletes (now : Int) (statFailsOn unlinkFailsOn : String → Bool)
    (f : FsEntry) : Bool :=
  !(statFailsOn f.name) && f.isFile && decide (now - f.mtimeMs > MAX_FILE_AGE_MS)
    && !(unlinkFailsOn f.name)

/-- The directory contents after one cleanupOldFiles pass. -/
def cleanupOldFiles (now : Int) (statFailsOn unlinkFailsOn : String → Bool)
    (dir : List FsEntry) : List FsEntry :=
  dir.filter (fun f => !(sweepDeletes now statFailsOn unlinkFailsOn f))

/-- One timer tick of the sweep (part_001 lines 50-53): both artifact
directories are cleaned. -/
def sweepCycle (now : Int) (statFailsOn unlinkFailsOn : String → Bool)
    (uploads processed : List FsEntry) : List FsEntry × List FsEntry :=
  (cleanupOldFiles now statFailsOn unlinkFailsOn uploads,
   cleanupOldFiles now statFailsOn unlinkFailsOn processed)

/-- C9: after one sweep pass, an entry on which no filesystem call fails
remains present exactly when it is not a regular file older than the
retention window; an entry at most as old as the window is always left
untouched; and a failing unlink on one path never aborts the sweep:
every other old file with working filesystem calls is still removed, in
both directories of the cycle. -/
theorem cleanup_sweep_spec (now : Int) (statFailsOn unlinkFailsOn : String → Bool)
    (dir uploads processed : List FsEntry) (f : FsEntry) :
    (statFailsOn f.name = false → unlinkFailsOn f.name = false →
      (f ∈ cleanupOldFiles now statFailsOn unlinkFailsOn dir
        ↔ f ∈ dir ∧ ¬(f.isFile = true ∧ now - f.mtimeMs > MAX_FILE_AGE_MS))) ∧
    (now - f.mtimeMs ≤ MAX_FILE_AGE_MS →
      (f ∈ cleanupOldFiles now statFailsOn unlinkFailsOn dir ↔ f ∈ dir)) ∧
    (∀ g : FsEntry, g ∈ dir →
      statFailsOn g.name = false → unlinkFailsOn g.name = false →
      g.isFile = true → now - g.mtimeMs > MAX_FILE_AGE_MS →
      ¬ g ∈ cleanupOldFiles now statFailsOn unlinkFailsOn dir) ∧
    (sweepCycle now statFailsOn unlinkFailsOn uploads processed
      = (cleanupOldFiles now statFailsOn unlinkFailsOn uploads,
         cleanupOldFiles now statFailsOn unlinkFailsOn processed)) := by
  refine ⟨?_, ?_, ?_, rfl⟩
  · intro hsf huf
    rw [cleanupOldFiles, List.mem_filter]
    simp only [sweepDeletes, hsf, huf]
    cases hf : f.isFile <;> simp [hf]
  · intro hyoung
    rw [cleanupOldFiles, List.mem_filter]
    have : sweepDeletes now statFailsOn unlinkFailsOn f = false := by
      simp [sweepDeletes]
      intro _ _ hold
      omega
    simp [this]
  · intro g hg hsf huf hfile hold
    rw [cleanupOldFiles, List.mem_filter]
    simp [sweepDeletes, hsf, huf, hfile, hold]

/-- C9 witness: with the window 900000 ms and now 2000000, a file from
time 0 is deleted, a file from time 1500000 is kept, and a file from
time 0 whose unlink fails is kept while the other old file is still
deleted. -/
theorem cleanup_sweep_spec_witness :
    ((fun _ : String => false) "old.mp4" = false →
      (fun n : String => n == "stuck.mp4") "old.mp4" = false →
      ((⟨"old.mp4", 0, true⟩ : FsEntry)
          ∈ cleanupOldFiles 2000000 (fun _ => false) (fun n => n == "stuck.mp4")
              [⟨"old.mp4", 0, true⟩, ⟨"new.mp4", 1500000, true⟩, ⟨"stuck.mp4", 0, true⟩]
        ↔ (⟨"old.mp4", 0, true⟩ : FsEntry)
            ∈ [(⟨"old.mp4", 0, true⟩ : FsEntry), ⟨"new.mp4", 1500000, true⟩, ⟨"stuck.mp4", 0, true⟩]
          ∧ ¬((true : Bool) = true ∧ (2000000 : Int) - 0 > MAX_FILE_AGE_MS))) ∧
    ((2000000 : Int) - 0 ≤ MAX_FILE_AGE_MS →
      ((⟨"old.mp4", 0, true⟩ : FsEntry)
          ∈ cleanupOldFiles 2000000 (fun _ => false) (fun n => n == "stuck.mp4")
              [⟨"old.mp4", 0, true⟩, ⟨"new.mp4", 1500000, true⟩, ⟨"stuck.mp4", 0, true⟩]
        ↔ (⟨"old.mp4", 0, true⟩ : FsEntry)
            ∈ [(⟨"old.mp4", 0, true⟩ : FsEntry), ⟨"new.mp4", 1500000, true⟩, ⟨"stuck.mp4", 0, true⟩])) ∧
    (∀ g : FsEntry,
      g ∈ [(⟨"old.mp4", 0, true⟩ : FsEntry), ⟨"new.mp4", 1500000, true⟩, ⟨"stuck.mp4", 0, true⟩] →
      (fun _ : String => false) g.name = false →
      (fun n : String => n == "stuck.mp4") g.name = false →
      g.isFile = true → (2000000 : Int) - g.mtimeMs > MAX_FILE_AGE_MS →
      ¬ g ∈ cleanupOldFiles 2000000 (fun _ => false) (fun n => n == "stuck.mp4")
              [⟨"old.mp4", 0, true⟩, ⟨"new.mp4", 1500000, true⟩, ⟨"stuck.mp4", 0, true⟩]) ∧
    (sweepCycle 2000000 (fun _ => false) (fun n => n == "stuck.mp4")
        [(⟨"old.mp4", 0, true⟩ : FsEntry)] [(⟨"new.mp4", 1500000, true⟩ : FsEntry)]
      = (cleanupOldFiles 2000000 (fun _ => false) (fun n => n == "stuck.mp4")
           [(⟨"old.mp4", 0, true⟩ : FsEntry)],
         cleanupOldFiles 2000000 (fun _ => false) (fun n => n == "stuck.mp4")
           [(⟨"new.mp4", 1500000, true⟩ : FsEntry)])) :=
  cleanup_sweep_spec 2000000 (fun _ => false) (fun n => n == "stuck.mp4")
    [⟨"old.mp4", 0, true⟩, ⟨"new.mp4", 1500000, true⟩, ⟨"stuck.mp4", 0, true⟩]
    [⟨"old.mp4", 0, true⟩] [⟨"new.mp4", 1500000, true⟩] ⟨"old.mp4", 0, true⟩
